import Mathlib

/-!
A shallow embedding of `src/memori.c` (a terminal line-viewer skeleton) and
proofs about it.  Bytes are modelled as `Nat`; C `int` fields are modelled as
`Int`.  I/O is made explicit: the bytes available on the input descriptor are
passed as arguments (`Option Nat` per bounded-timeout `read` attempt, `none`
meaning the read returned without a byte), and output is returned as byte
lists.  All integer divisions in the embedding are applied to nonnegative
operands, where every division convention (C truncation, Lean `Int` division)
agrees.
-/

namespace Memori

/-! ### Key codes (enum EditorKey and relevant byte values) -/

def ARROW_LEFT : Nat := 1000
def ARROW_RIGHT : Nat := 1001
def ARROW_UP : Nat := 1002
def ARROW_DOWN : Nat := 1003
def PAGE_UP : Nat := 1004
def PAGE_DOWN : Nat := 1005
def HOME_KEY : Nat := 1006
def END_KEY : Nat := 1007
def DELETE_KEY : Nat := 1008

/-- The escape byte `'\x1b'`. -/
def ESC_BYTE : Nat := 27

/-- `CTRL_KEY('q') = 'q' & 0x1f = 17`. -/
def CTRL_Q : Nat := 17

/-! ### Data model (`struct erow`, `struct EditorConfig`) -/

/-- `struct erow`: a single text row, `size` plus its bytes (`chars`). -/
structure Erow where
  size : Int
  chars : List Nat
deriving Repr, DecidableEq

/-- `struct EditorConfig`: cursor position, viewport dimensions, row count and
the single loaded row.  The saved `termios` snapshot is outside the embedded
state (it never influences the functions modelled here). -/
structure EditorConfig where
  cx : Int
  cy : Int
  screenRows : Int
  screenCols : Int
  numRows : Int
  row : Erow
deriving Repr, DecidableEq

/-- A concrete 24x80 viewport with no loaded row and the cursor at the origin,
as after `Editor_init` on a 24x80 terminal. -/
def e24 : EditorConfig :=
  { cx := 0, cy := 0, screenRows := 24, screenCols := 80, numRows := 0,
    row := { size := 0, chars := [] } }

/-! ### KeyDecoder (`Terminal_readKey`)

The C function first loops until `read` yields one byte `c`; that byte is the
`c` argument here.  The follow-up bounded-timeout reads are modelled by the
`reads` list: each element is the outcome of one `read(STDIN_FILENO, .., 1)`
call, `none` meaning the timeout expired without a byte. -/

/-- The `switch (seq[1])` on letters `A B C D H F` reached after `ESC [`
(directly, or by fallthrough from the numeric branch); any other byte falls
out of the switch and the function returns the escape byte. -/
def escLetterSwitch (s1 : Nat) : Nat :=
  if s1 = 65 then ARROW_UP
  else if s1 = 66 then ARROW_DOWN
  else if s1 = 67 then ARROW_RIGHT
  else if s1 = 68 then ARROW_LEFT
  else if s1 = 72 then HOME_KEY
  else if s1 = 70 then END_KEY
  else ESC_BYTE

/-- The `switch (seq[1])` inside `if (seq[2] == '~')`: digits `1 7` map to
home, `4 8` to end, `2 5` to page-up, `6` to page-down, `3` to delete; the
remaining digits (`0`, `9`) fall through to the letter switch (where no digit
matches, yielding the escape byte). -/
def escDigitSwitch (s1 : Nat) : Nat :=
  if s1 = 49 ∨ s1 = 55 then HOME_KEY
  else if s1 = 52 ∨ s1 = 56 then END_KEY
  else if s1 = 50 ∨ s1 = 53 then PAGE_UP
  else if s1 = 54 then PAGE_DOWN
  else if s1 = 51 then DELETE_KEY
  else escLetterSwitch s1

/-- `Terminal_readKey`: a non-escape first byte is returned directly.  After
an escape byte, two follow-up reads are attempted; if either fails the escape
byte itself is returned.  `ESC [ <digit>` attempts a third read (failure again
returns the escape byte) and decodes `<digit>~`; all other tails go through
the letter switch or the `ESC O` branch; anything unrecognized returns the
escape byte. -/
def Terminal_readKey (c : Nat) (reads : List (Option Nat)) : Nat :=
  if c = ESC_BYTE then
    match reads with
    | some s0 :: some s1 :: rest =>
      if s0 = 91 then
        if 48 ≤ s1 ∧ s1 ≤ 57 then
          match rest with
          | some s2 :: _ => if s2 = 126 then escDigitSwitch s1 else escLetterSwitch s1
          | _ => ESC_BYTE
        else escLetterSwitch s1
      else if s0 = 79 then
        if s1 = 72 then HOME_KEY else if s1 = 70 then END_KEY else ESC_BYTE
      else ESC_BYTE
    | _ => ESC_BYTE
  else c

/-! ### EditorState transitions (`Editor_processMoveCursor`, `Editor_processKey`) -/

/-- `Editor_processMoveCursor`: one cursor step, clamped against the viewport
edges; `k j l h` are aliases of the arrow keys; any other key does nothing. -/
def Editor_processMoveCursor (key : Nat) (e : EditorConfig) : EditorConfig :=
  if key = 107 ∨ key = ARROW_UP then
    if e.cy > 0 then { e with cy := e.cy - 1 } else e
  else if key = 106 ∨ key = ARROW_DOWN then
    if e.cy < e.screenRows - 1 then { e with cy := e.cy + 1 } else e
  else if key = 108 ∨ key = ARROW_RIGHT then
    if e.cx < e.screenCols - 1 then { e with cx := e.cx + 1 } else e
  else if key = 104 ∨ key = ARROW_LEFT then
    if e.cx > 0 then { e with cx := e.cx - 1 } else e
  else e

/-- The `while (times--)` loop of the page-up/page-down branch, with the loop
counter `int times = editorConfig.screenRows` (taken as a `Nat`; the counter
is positive in every reachable state). -/
def repeatMove (key : Nat) : Nat → EditorConfig → EditorConfig
  | 0, e => e
  | n + 1, e => repeatMove key n (Editor_processMoveCursor key e)

/-- `Editor_processKey` after the key has been read: `none` models the
`exit(0)` taken on Ctrl-Q, otherwise the updated state is returned.  Keys
outside the `switch` hit no `case` and leave the state untouched. -/
def Editor_processKey (key : Nat) (e : EditorConfig) : Option EditorConfig :=
  if key = CTRL_Q then none
  else if key = PAGE_UP ∨ key = PAGE_DOWN then
    some (repeatMove (if key = PAGE_UP then ARROW_UP else ARROW_DOWN) e.screenRows.toNat e)
  else if key = HOME_KEY then some { e with cx := 0 }
  else if key = END_KEY then some { e with cx := e.screenCols - 1 }
  else if key = 107 ∨ key = 106 ∨ key = 108 ∨ key = 104 ∨
          key = ARROW_UP ∨ key = ARROW_DOWN ∨ key = ARROW_RIGHT ∨ key = ARROW_LEFT then
    some (Editor_processMoveCursor key e)
  else some e

/-! ### RenderBuffer (`struct AppendBuffer`) -/

/-- `struct AppendBuffer`: the accumulated bytes and the `len` field. -/
structure AppendBuffer where
  buf : List Nat
  len : Int
deriving Repr, DecidableEq

/-- `APPEND_BUFFER_INIT`: `{NULL, 0}`. -/
def APPEND_BUFFER_INIT : AppendBuffer := { buf := [], len := 0 }

/-- `AppendBuffer_append(ab, s, len)`: `realloc` to `ab->len + len`, `memcpy`
`len` bytes of `s` behind the existing content, and bump `len`.  The outcome
of the `realloc` call is the explicit `allocOk` argument: on failure the
function returns at once, leaving the buffer untouched. -/
def AppendBuffer_append (allocOk : Bool) (ab : AppendBuffer) (s : List Nat) (len : Nat) :
    AppendBuffer :=
  if allocOk then { buf := ab.buf ++ s.take len, len := ab.len + len } else ab

/-! ### File loading (`Editor_open`)

The opened file is modelled as `Option (List Nat)`: `none` when `fopen`
fails, otherwise the file's bytes. -/

/-- The prefix of the byte stream that one `getline` call yields: everything
up to and including the first `'\n'`, or the whole stream if it holds none. -/
def getlineTake : List Nat → List Nat
  | [] => []
  | b :: bs => if b = 10 then [10] else b :: getlineTake bs

/-- `getline` on the whole file: `none` models the `-1` return at immediate
end-of-file (empty file), otherwise the first line, newline included. -/
def firstLine (contents : List Nat) : Option (List Nat) :=
  if contents = [] then none else some (getlineTake contents)

/-- The `while (linelen > 0 && (line[linelen-1] == '\r' || line[linelen-1] == '\n'))
linelen--;` loop: drop every trailing CR (13) and LF (10) byte. -/
def stripTrailingCRLF (l : List Nat) : List Nat :=
  (l.reverse.dropWhile (fun b => b == 13 || b == 10)).reverse

/-- `Editor_open`: a failed `fopen` calls `Terminal_die`, i.e. the process
exits with status 1 (`.error 1`).  Otherwise the first line, with trailing
CR/LF stripped, becomes the loaded row and `numRows` becomes 1; an empty file
(where `getline` returns `-1`) leaves the state untouched. -/
def Editor_open (file : Option (List Nat)) (e : EditorConfig) : Except Nat EditorConfig :=
  match file with
  | none => .error 1
  | some contents =>
    match firstLine contents with
    | none => .ok e
    | some line =>
      let stripped := stripTrailingCRLF line
      .ok { e with row := { size := (stripped.length : Int), chars := stripped },
                   numRows := 1 }

/-! ### ScreenRenderer (`Editor_drawRows`, `Editor_refreshScreen`)

The frame is composed through `AppendBuffer_append`; the byte lists below are
the buffer contents under the successful-allocation behaviour of that
function (`allocOk = true`), under which each append extends the buffer by
exactly the given bytes, in order. -/

/-- The bytes of `"Memori editor -- version 0.0.1"`, the banner `snprintf`
composes (30 bytes, below the 80-byte buffer cap, so never truncated by
`snprintf` itself). -/
def welcomeBytes : List Nat :=
  [77, 101, 109, 111, 114, 105, 32, 101, 100, 105, 116, 111, 114, 32, 45, 45,
   32, 118, 101, 114, 115, 105, 111, 110, 32, 48, 46, 48, 46, 49]

/-- The decimal ASCII bytes of an integer, as `snprintf`'s `%d` renders it. -/
def intDecimalBytes (n : Int) : List Nat :=
  (toString n).toList.map Char.toNat

/-- The `"\x1b[%d;%dH"` cursor-position sequence for the given (1-based)
row and column. -/
def cursorPosSeq (row col : Int) : List Nat :=
  [27, 91] ++ intDecimalBytes row ++ [59] ++ intDecimalBytes col ++ [72]

/-- The content bytes the row-drawing loop appends for viewport row `y`
(before the erase-in-line sequence): the loaded row truncated to the viewport
width when `y < numRows`; on row `screenRows / 3` the banner, truncated to
the viewport width and preceded by `(screenCols - welcomeLen) / 2` padding
bytes whose first is `'~'`; a single `'~'` everywhere else. -/
def Editor_drawRowContent (e : EditorConfig) (y : Int) : List Nat :=
  if y < e.numRows then
    let len : Int := if e.row.size > e.screenCols then e.screenCols else e.row.size
    e.row.chars.take len.toNat
  else if y = e.screenRows / 3 then
    let welcomeLen : Int :=
      if (welcomeBytes.length : Int) > e.screenCols then e.screenCols
      else (welcomeBytes.length : Int)
    let padding : Int := (e.screenCols - welcomeLen) / 2
    (if padding ≠ 0 then 126 :: List.replicate (padding - 1).toNat 32 else []) ++
      welcomeBytes.take welcomeLen.toNat
  else [126]

/-- One iteration of the `Editor_drawRows` loop: the row content, the
`"\x1b[K"` erase-in-line sequence, and `"\r\n"` on every row but the last. -/
def Editor_drawRow (e : EditorConfig) (y : Int) : List Nat :=
  Editor_drawRowContent e y ++ [27, 91, 75] ++
    (if y < e.screenRows - 1 then [13, 10] else [])

/-- `Editor_drawRows`: the loop `for (y = 0; y < screenRows; y++)`. -/
def Editor_drawRows (e : EditorConfig) : List Nat :=
  ((List.range e.screenRows.toNat).map (fun y => Editor_drawRow e (y : Int))).flatten

/-- The whole frame `Editor_refreshScreen` composes in its `AppendBuffer`:
hide cursor, cursor home, the rows, the 1-based cursor-position sequence for
`(cy + 1, cx + 1)`, show cursor. -/
def frameBytes (e : EditorConfig) : List Nat :=
  [27, 91, 63, 50, 53, 108] ++
  [27, 91, 72] ++
  Editor_drawRows e ++
  cursorPosSeq (e.cy + 1) (e.cx + 1) ++
  [27, 91, 63, 50, 53, 104]

/-- `Editor_refreshScreen` as the list of `write` calls it performs on the
output descriptor: the single `write(STDOUT_FILENO, ab.buf, ab.len)` of the
composed frame. -/
def Editor_refreshScreen (e : EditorConfig) : List (List Nat) :=
  [frameBytes e]

/-! ### Process entry (`main`) -/

/-- The observable behaviours of `main`'s argument check. -/
inductive MainBehavior where
  | usageExit (status : Nat)
  | viewerLoop
deriving Repr, DecidableEq

/-- `main`: with fewer than two arguments (no file path), print the usage
message and `return 0`; otherwise enter raw mode, init, open the file and run
the render/read/process loop. -/
def memori_main (argc : Nat) : MainBehavior :=
  if argc < 2 then .usageExit 0 else .viewerLoop

/-! ### Helper lemmas -/

theorem processMoveCursor_dims (key : Nat) (e : EditorConfig) :
    (Editor_processMoveCursor key e).screenRows = e.screenRows ∧
    (Editor_processMoveCursor key e).screenCols = e.screenCols := by
  unfold Editor_processMoveCursor
  split_ifs <;> exact ⟨rfl, rfl⟩

theorem processMoveCursor_inv (key : Nat) (e : EditorConfig)
    (h1 : 0 ≤ e.cy) (h2 : e.cy < e.screenRows)
    (h3 : 0 ≤ e.cx) (h4 : e.cx < e.screenCols) :
    0 ≤ (Editor_processMoveCursor key e).cy ∧
    (Editor_processMoveCursor key e).cy < e.screenRows ∧
    0 ≤ (Editor_processMoveCursor key e).cx ∧
    (Editor_processMoveCursor key e).cx < e.screenCols := by
  unfold Editor_processMoveCursor
  split_ifs <;> first | omega | (simp; omega)

theorem repeatMove_dims (key : Nat) (n : Nat) (e : EditorConfig) :
    (repeatMove key n e).screenRows = e.screenRows ∧
    (repeatMove key n e).screenCols = e.screenCols := by
  induction n generalizing e with
  | zero => exact ⟨rfl, rfl⟩
  | succ n ih =>
    have hd := processMoveCursor_dims key e
    have := ih (Editor_processMoveCursor key e)
    exact ⟨by rw [repeatMove, this.1, hd.1], by rw [repeatMove, this.2, hd.2]⟩

theorem repeatMove_inv (key : Nat) (n : Nat) (e : EditorConfig)
    (h1 : 0 ≤ e.cy) (h2 : e.cy < e.screenRows)
    (h3 : 0 ≤ e.cx) (h4 : e.cx < e.screenCols) :
    0 ≤ (repeatMove key n e).cy ∧
    (repeatMove key n e).cy < e.screenRows ∧
    0 ≤ (repeatMove key n e).cx ∧
    (repeatMove key n e).cx < e.screenCols := by
  induction n generalizing e with
  | zero => exact ⟨h1, h2, h3, h4⟩
  | succ n ih =>
    have hd := processMoveCursor_dims key e
    have hm := processMoveCursor_inv key e h1 h2 h3 h4
    have := ih (Editor_processMoveCursor key e)
      hm.1 (by rw [hd.1]; exact hm.2.1) hm.2.2.1 (by rw [hd.2]; exact hm.2.2.2)
    rw [repeatMove]
    exact ⟨this.1, by rw [← hd.1]; exact this.2.1, this.2.2.1,
      by rw [← hd.2]; exact this.2.2.2⟩

/-! ### Claim C3 -/

/-- C3: from any state whose cursor lies inside a positive viewport, every
key event processed by `Editor_processKey` yields a state whose cursor again
lies inside its viewport, and a single-step movement at a boundary leaves the
state unchanged rather than failing. -/
theorem claim3_cursor_bounds_invariant (e : EditorConfig) (key : Nat)
    (hr : 0 < e.screenRows) (hc : 0 < e.screenCols)
    (h1 : 0 ≤ e.cy) (h2 : e.cy < e.screenRows)
    (h3 : 0 ≤ e.cx) (h4 : e.cx < e.screenCols) :
    (∀ e', Editor_processKey key e = some e' →
       0 ≤ e'.cy ∧ e'.cy < e'.screenRows ∧ 0 ≤ e'.cx ∧ e'.cx < e'.screenCols) ∧
    (e.cy = 0 → Editor_processMoveCursor ARROW_UP e = e) ∧
    (e.cy = e.screenRows - 1 → Editor_processMoveCursor ARROW_DOWN e = e) ∧
    (e.cx = 0 → Editor_processMoveCursor ARROW_LEFT e = e) ∧
    (e.cx = e.screenCols - 1 → Editor_processMoveCursor ARROW_RIGHT e = e) := by
  have hrep : ∀ k' : Nat,
      0 ≤ (repeatMove k' e.screenRows.toNat e).cy ∧
      (repeatMove k' e.screenRows.toNat e).cy <
        (repeatMove k' e.screenRows.toNat e).screenRows ∧
      0 ≤ (repeatMove k' e.screenRows.toNat e).cx ∧
      (repeatMove k' e.screenRows.toNat e).cx <
        (repeatMove k' e.screenRows.toNat e).screenCols := by
    intro k'
    have hd := repeatMove_dims k' e.screenRows.toNat e
    have hi := repeatMove_inv k' e.screenRows.toNat e h1 h2 h3 h4
    rw [hd.1, hd.2]
    exact hi
  refine ⟨?_, ?_, ?_, ?_, ?_⟩
  · intro e' he'
    unfold Editor_processKey at he'
    split_ifs at he' with hq hpg hpu hhome hend hmove
    · injection he' with h
      subst h
      exact hrep ARROW_UP
    · injection he' with h
      subst h
      exact hrep ARROW_DOWN
    · injection he' with h
      subst h
      exact ⟨h1, h2, le_refl 0, hc⟩
    · injection he' with h
      subst h
      refine ⟨h1, h2, ?_, ?_⟩
      · show (0 : Int) ≤ e.screenCols - 1
        omega
      · show e.screenCols - 1 < e.screenCols
        omega
    · injection he' with h
      subst h
      have hd := processMoveCursor_dims key e
      have hi := processMoveCursor_inv key e h1 h2 h3 h4
      rw [hd.1, hd.2]
      exact hi
    · injection he' with h
      subst h
      exact ⟨h1, h2, h3, h4⟩
  · intro h0
    unfold Editor_processMoveCursor
    rw [if_pos (Or.inr rfl), if_neg (by omega)]
  · intro h0
    have : ¬ (ARROW_DOWN = 107 ∨ ARROW_DOWN = ARROW_UP) := by decide
    unfold Editor_processMoveCursor
    rw [if_neg this, if_pos (Or.inr rfl), if_neg (by omega)]
  · intro h0
    have ha : ¬ (ARROW_LEFT = 107 ∨ ARROW_LEFT = ARROW_UP) := by decide
    have hb : ¬ (ARROW_LEFT = 106 ∨ ARROW_LEFT = ARROW_DOWN) := by decide
    have hcnd : ¬ (ARROW_LEFT = 108 ∨ ARROW_LEFT = ARROW_RIGHT) := by decide
    unfold Editor_processMoveCursor
    rw [if_neg ha, if_neg hb, if_neg hcnd, if_pos (Or.inr rfl), if_neg (by omega)]
  · intro h0
    have ha : ¬ (ARROW_RIGHT = 107 ∨ ARROW_RIGHT = ARROW_UP) := by decide
    have hb : ¬ (ARROW_RIGHT = 106 ∨ ARROW_RIGHT = ARROW_DOWN) := by decide
    unfold Editor_processMoveCursor
    rw [if_neg ha, if_neg hb, if_pos (Or.inr rfl), if_neg (by omega)]

/-- C3 witness: the theorem applied to the concrete 24x80 state `e24` and the
arrow-up key. -/
theorem claim3_cursor_bounds_invariant_witness :
    (∀ e', Editor_processKey ARROW_UP e24 = some e' →
       0 ≤ e'.cy ∧ e'.cy < e'.screenRows ∧ 0 ≤ e'.cx ∧ e'.cx < e'.screenCols) ∧
    (e24.cy = 0 → Editor_processMoveCursor ARROW_UP e24 = e24) ∧
    (e24.cy = e24.screenRows - 1 → Editor_processMoveCursor ARROW_DOWN e24 = e24) ∧
    (e24.cx = 0 → Editor_processMoveCursor ARROW_LEFT e24 = e24) ∧
    (e24.cx = e24.screenCols - 1 → Editor_processMoveCursor ARROW_RIGHT e24 = e24) :=
  claim3_cursor_bounds_invariant e24 ARROW_UP (by decide) (by decide)
    (by decide) (by decide) (by decide) (by decide)

/-! ### Claim C5 -/

theorem repeatMove_eq_iterate (key : Nat) (n : Nat) (e : EditorConfig) :
    repeatMove key n e = (Editor_processMoveCursor key)^[n] e := by
  induction n generalizing e with
  | zero => rfl
  | succ n ih => rw [repeatMove, ih, Function.iterate_succ_apply]

set_option maxRecDepth 4000 in
/-- C5: page-up (page-down) is processed as `screenRows` iterations of the
single-step up (down) movement; concretely, page-down from row 0 of the 24x80
viewport lands on row 23. -/
theorem claim5_page_keys_iterate (e : EditorConfig) :
    Editor_processKey PAGE_UP e =
      some ((Editor_processMoveCursor ARROW_UP)^[e.screenRows.toNat] e) ∧
    Editor_processKey PAGE_DOWN e =
      some ((Editor_processMoveCursor ARROW_DOWN)^[e.screenRows.toNat] e) ∧
    Editor_processKey PAGE_DOWN e24 = some { e24 with cy := 23 } := by
  refine ⟨?_, ?_, by decide⟩
  · unfold Editor_processKey
    rw [if_neg (by decide), if_pos (Or.inl rfl), if_pos rfl, repeatMove_eq_iterate]
  · unfold Editor_processKey
    rw [if_neg (by decide), if_pos (Or.inr rfl), if_neg (by decide),
      repeatMove_eq_iterate]

/-! ### Claim C10 -/

/-- C10: a key that is none of Ctrl-Q, the page/home/end keys, the arrow keys
or the `h j k l` aliases falls through every `case` of `Editor_processKey`
and leaves the editor state exactly as it was; the delete key (1008) is such
a key. -/
theorem claim10_unhandled_keys_noop (key : Nat) (e : EditorConfig)
    (h : key ∉ ([17, 104, 106, 107, 108, 1000, 1001, 1002, 1003, 1004,
                 1005, 1006, 1007] : List Nat)) :
    Editor_processKey key e = some e := by
  have h' : key ≠ 17 ∧ key ≠ 104 ∧ key ≠ 106 ∧ key ≠ 107 ∧ key ≠ 108 ∧
      key ≠ 1000 ∧ key ≠ 1001 ∧ key ≠ 1002 ∧ key ≠ 1003 ∧ key ≠ 1004 ∧
      key ≠ 1005 ∧ key ≠ 1006 ∧ key ≠ 1007 := by simpa using h
  obtain ⟨n17, n104, n106, n107, n108, n1000, n1001, n1002, n1003, n1004,
    n1005, n1006, n1007⟩ := h'
  unfold Editor_processKey
  rw [if_neg (show ¬ key = CTRL_Q by simpa [CTRL_Q] using n17),
    if_neg (show ¬ (key = PAGE_UP ∨ key = PAGE_DOWN) by
      simp [PAGE_UP, PAGE_DOWN]; exact ⟨n1004, n1005⟩),
    if_neg (show ¬ key = HOME_KEY by simpa [HOME_KEY] using n1006),
    if_neg (show ¬ key = END_KEY by simpa [END_KEY] using n1007),
    if_neg (show ¬ (key = 107 ∨ key = 106 ∨ key = 108 ∨ key = 104 ∨
        key = ARROW_UP ∨ key = ARROW_DOWN ∨ key = ARROW_RIGHT ∨ key = ARROW_LEFT) by
      simp [ARROW_UP, ARROW_DOWN, ARROW_RIGHT, ARROW_LEFT]
      exact ⟨n107, n106, n108, n104, n1002, n1003, n1001, n1000⟩)]

/-- C10 witness: the delete key leaves the concrete state `e24` unchanged. -/
theorem claim10_unhandled_keys_noop_witness :
    Editor_processKey 1008 e24 = some e24 :=
  claim10_unhandled_keys_noop 1008 e24 (by decide)

/-! ### Claim C4 -/

/-- C4: after the escape byte, a failed follow-up read (at either position)
makes `Terminal_readKey` return the escape byte itself, and a non-escape
first byte, such as `'k'` (107), is returned directly. -/
theorem claim4_lone_escape (c s0 : Nat) (rest : List (Option Nat)) (hc : c ≠ 27) :
    Terminal_readKey 27 [] = 27 ∧
    Terminal_readKey 27 (none :: rest) = 27 ∧
    Terminal_readKey 27 [some s0] = 27 ∧
    Terminal_readKey 27 (some s0 :: none :: rest) = 27 ∧
    Terminal_readKey c rest = c ∧
    Terminal_readKey 107 [] = 107 := by
  refine ⟨rfl, rfl, rfl, rfl, ?_, rfl⟩
  simp [Terminal_readKey, ESC_BYTE, hc]

/-- C4 witness: the theorem at `c = 107`, `s0 = 91`, no pending reads. -/
theorem claim4_lone_escape_witness :
    Terminal_readKey 27 [] = 27 ∧
    Terminal_readKey 27 (none :: []) = 27 ∧
    Terminal_readKey 27 [some 91] = 27 ∧
    Terminal_readKey 27 (some 91 :: none :: []) = 27 ∧
    Terminal_readKey 107 [] = 107 ∧
    Terminal_readKey 107 [] = 107 :=
  claim4_lone_escape 107 91 [] (by decide)

/-! ### Claim C1 -/

/-- C1 counterexample: the tail `[2~` does not resolve to the literal escape
byte as the claim states; `Terminal_readKey` maps it to page-up. -/
theorem claim1_counterexample :
    Terminal_readKey 27 [some 91, some 50, some 126] = PAGE_UP ∧
    PAGE_UP ≠ ESC_BYTE := by
  decide

theorem escLetterSwitch_unmatched (d : Nat) (n65 : d ≠ 65) (n66 : d ≠ 66)
    (n67 : d ≠ 67) (n68 : d ≠ 68) (n72 : d ≠ 72) (n70 : d ≠ 70) :
    escLetterSwitch d = ESC_BYTE := by
  simp [escLetterSwitch, n65, n66, n67, n68, n72, n70]

/-- C1 (amended): the decoding table of `Terminal_readKey` is
`[A`→up, `[B`→down, `[C`→right, `[D`→left, `[H`→home, `[F`→end, `OH`→home,
`OF`→end, `[1~`/`[7~`→home, `[4~`/`[8~`→end, `[2~`/`[5~`→page-up,
`[6~`→page-down, `[3~`→delete, and every tail outside this table resolves to
the literal escape byte: after `[` a second byte that is neither a table
letter nor a digit `1`-`8` (`d1`, covering `[9~`), after `[` any digit whose
third read fails (`d2` with no byte or a timeout) or produces a byte other
than `~` (`s2`, covering `[5A`), after `O` a byte other than `H`/`F` (`d3`,
covering `OA` and `O5`), and any second byte other than `[`/`O` (`s0`). -/
theorem claim1_decode_table (d1 d2 d3 s0 s1 s2 : Nat)
    (r1 r2 r3 r4 r5 : List (Option Nat))
    (hd1 : d1 ∉ ([65, 66, 67, 68, 72, 70, 49, 50, 51, 52, 53, 54, 55, 56] : List Nat))
    (hd2 : 48 ≤ d2) (hd2' : d2 ≤ 57) (hs2 : s2 ≠ 126)
    (hd3 : d3 ∉ ([72, 70] : List Nat))
    (hs0 : s0 ∉ ([91, 79] : List Nat)) :
    (Terminal_readKey 27 [some 91, some 65] = ARROW_UP ∧
     Terminal_readKey 27 [some 91, some 66] = ARROW_DOWN ∧
     Terminal_readKey 27 [some 91, some 67] = ARROW_RIGHT ∧
     Terminal_readKey 27 [some 91, some 68] = ARROW_LEFT ∧
     Terminal_readKey 27 [some 91, some 72] = HOME_KEY ∧
     Terminal_readKey 27 [some 91, some 70] = END_KEY ∧
     Terminal_readKey 27 [some 79, some 72] = HOME_KEY ∧
     Terminal_readKey 27 [some 79, some 70] = END_KEY) ∧
    (Terminal_readKey 27 [some 91, some 49, some 126] = HOME_KEY ∧
     Terminal_readKey 27 [some 91, some 55, some 126] = HOME_KEY ∧
     Terminal_readKey 27 [some 91, some 52, some 126] = END_KEY ∧
     Terminal_readKey 27 [some 91, some 56, some 126] = END_KEY ∧
     Terminal_readKey 27 [some 91, some 50, some 126] = PAGE_UP ∧
     Terminal_readKey 27 [some 91, some 53, some 126] = PAGE_UP ∧
     Terminal_readKey 27 [some 91, some 54, some 126] = PAGE_DOWN ∧
     Terminal_readKey 27 [some 91, some 51, some 126] = DELETE_KEY) ∧
    Terminal_readKey 27 (some 91 :: some d1 :: r1) = ESC_BYTE ∧
    Terminal_readKey 27 [some 91, some d2] = ESC_BYTE ∧
    Terminal_readKey 27 (some 91 :: some d2 :: none :: r2) = ESC_BYTE ∧
    Terminal_readKey 27 (some 91 :: some d2 :: some s2 :: r3) = ESC_BYTE ∧
    Terminal_readKey 27 (some 79 :: some d3 :: r4) = ESC_BYTE ∧
    Terminal_readKey 27 (some s0 :: some s1 :: r5) = ESC_BYTE := by
  have h' : d1 ≠ 65 ∧ d1 ≠ 66 ∧ d1 ≠ 67 ∧ d1 ≠ 68 ∧ d1 ≠ 72 ∧ d1 ≠ 70 ∧
      d1 ≠ 49 ∧ d1 ≠ 50 ∧ d1 ≠ 51 ∧ d1 ≠ 52 ∧ d1 ≠ 53 ∧ d1 ≠ 54 ∧ d1 ≠ 55 ∧
      d1 ≠ 56 := by simpa using hd1
  obtain ⟨n65, n66, n67, n68, n72, n70, n49, n50, n51, n52, n53, n54, n55, n56⟩ := h'
  have hd3' : d3 ≠ 72 ∧ d3 ≠ 70 := by simpa using hd3
  have hs0' : s0 ≠ 91 ∧ s0 ≠ 79 := by simpa using hs0
  have hlet1 := escLetterSwitch_unmatched d1 n65 n66 n67 n68 n72 n70
  have hlet2 := escLetterSwitch_unmatched d2 (by omega) (by omega) (by omega)
    (by omega) (by omega) (by omega)
  refine ⟨by decide, by decide, ?_, ?_, ?_, ?_, ?_, ?_⟩
  · simp only [Terminal_readKey, ESC_BYTE, if_true, ite_true, eq_self_iff_true]
    by_cases hdig : 48 ≤ d1 ∧ d1 ≤ 57
    · have hd48 : d1 = 48 ∨ d1 = 57 := by omega
      rw [if_pos hdig]
      rcases r1 with _ | ⟨o, rest'⟩
      · rfl
      · rcases o with _ | t2
        · rfl
        · show (if t2 = 126 then escDigitSwitch d1 else escLetterSwitch d1) = 27
          rcases hd48 with rfl | rfl <;> split_ifs <;> decide
    · rw [if_neg hdig]
      simpa [ESC_BYTE] using hlet1
  · simp only [Terminal_readKey, ESC_BYTE, if_true, ite_true, eq_self_iff_true]
    rw [if_pos ⟨hd2, hd2'⟩]
  · simp only [Terminal_readKey, ESC_BYTE, if_true, ite_true, eq_self_iff_true]
    rw [if_pos ⟨hd2, hd2'⟩]
  · simp only [Terminal_readKey, ESC_BYTE, if_true, ite_true, eq_self_iff_true]
    rw [if_pos ⟨hd2, hd2'⟩]
    show (if s2 = 126 then escDigitSwitch d2 else escLetterSwitch d2) = 27
    rw [if_neg hs2]
    simpa [ESC_BYTE] using hlet2
  · simp [Terminal_readKey, ESC_BYTE, hd3'.1, hd3'.2]
  · simp [Terminal_readKey, ESC_BYTE, hs0'.1, hs0'.2]

/-- C1 witness: the amended theorem at the non-table tails `[9~` (`d1 = 57`),
`[1` with a failed or timed-out third read and `[1A` (`d2 = 49`, `s2 = 65`),
`OA` (`d3 = 65`) and the unrecognized introducer byte `s0 = 100`. -/
theorem claim1_decode_table_witness :
    (Terminal_readKey 27 [some 91, some 65] = ARROW_UP ∧
     Terminal_readKey 27 [some 91, some 66] = ARROW_DOWN ∧
     Terminal_readKey 27 [some 91, some 67] = ARROW_RIGHT ∧
     Terminal_readKey 27 [some 91, some 68] = ARROW_LEFT ∧
     Terminal_readKey 27 [some 91, some 72] = HOME_KEY ∧
     Terminal_readKey 27 [some 91, some 70] = END_KEY ∧
     Terminal_readKey 27 [some 79, some 72] = HOME_KEY ∧
     Terminal_readKey 27 [some 79, some 70] = END_KEY) ∧
    (Terminal_readKey 27 [some 91, some 49, some 126] = HOME_KEY ∧
     Terminal_readKey 27 [some 91, some 55, some 126] = HOME_KEY ∧
     Terminal_readKey 27 [some 91, some 52, some 126] = END_KEY ∧
     Terminal_readKey 27 [some 91, some 56, some 126] = END_KEY ∧
     Terminal_readKey 27 [some 91, some 50, some 126] = PAGE_UP ∧
     Terminal_readKey 27 [some 91, some 53, some 126] = PAGE_UP ∧
     Terminal_readKey 27 [some 91, some 54, some 126] = PAGE_DOWN ∧
     Terminal_readKey 27 [some 91, some 51, some 126] = DELETE_KEY) ∧
    Terminal_readKey 27 (some 91 :: some 57 :: [some 126]) = ESC_BYTE ∧
    Terminal_readKey 27 [some 91, some 49] = ESC_BYTE ∧
    Terminal_readKey 27 (some 91 :: some 49 :: none :: []) = ESC_BYTE ∧
    Terminal_readKey 27 (some 91 :: some 49 :: some 65 :: []) = ESC_BYTE ∧
    Terminal_readKey 27 (some 79 :: some 65 :: []) = ESC_BYTE ∧
    Terminal_readKey 27 (some 100 :: some 65 :: []) = ESC_BYTE :=
  claim1_decode_table 57 49 65 100 65 65 [some 126] [] [] [] []
    (by decide) (by decide) (by decide) (by decide) (by decide) (by decide)

/-! ### Claim C2 -/

/-- C2 counterexample: started without a file-path argument (`argc = 1`),
`main` takes the usage-message exit and never enters the viewer loop, so no
banner-only viewer runs. -/
theorem claim2_counterexample :
    memori_main 1 = MainBehavior.usageExit 0 ∧
    memori_main 1 ≠ MainBehavior.viewerLoop := by
  decide

/-- C2 (amended): without a file-path argument the process prints the usage
message and exits with status 0; the viewer loop is not entered. -/
theorem claim2_missing_argument (argc : Nat) (h : argc < 2) :
    memori_main argc = MainBehavior.usageExit 0 := by
  unfold memori_main
  rw [if_pos h]

/-- C2 witness: the amended theorem at `argc = 1`. -/
theorem claim2_missing_argument_witness :
    memori_main 1 = MainBehavior.usageExit 0 :=
  claim2_missing_argument 1 (by decide)

/-! ### Claim C6 -/

/-- C6: under successful allocation consecutive appends accumulate the bytes
in order (associatively, with `len` counting every appended byte); appending
`"a"` then `"bc"` to the empty buffer yields `"abc"` with length 3; a failed
allocation drops the append, leaving content and length untouched. -/
theorem claim6_append_accumulates (ab : AppendBuffer) (s t : List Nat)
    (sl tl : Nat) :
    (AppendBuffer_append true (AppendBuffer_append true ab s sl) t tl).buf
      = ab.buf ++ (s.take sl ++ t.take tl) ∧
    (AppendBuffer_append true (AppendBuffer_append true ab s sl) t tl).len
      = ab.len + sl + tl ∧
    AppendBuffer_append true
        (AppendBuffer_append true APPEND_BUFFER_INIT [97] 1) [98, 99] 2
      = { buf := [97, 98, 99], len := 3 } ∧
    AppendBuffer_append false ab s sl = ab := by
  refine ⟨by simp [AppendBuffer_append], by simp [AppendBuffer_append],
    by decide, by simp [AppendBuffer_append]⟩

/-! ### Claim C7 -/

theorem head_dropWhile_not (p : Nat → Bool) (l : List Nat) (b : Nat)
    (h : (l.dropWhile p).head? = some b) : p b = false := by
  induction l with
  | nil => simp [List.dropWhile] at h
  | cons x xs ih =>
    rw [List.dropWhile_cons] at h
    by_cases hx : p x
    · rw [if_pos hx] at h
      exact ih h
    · rw [if_neg hx] at h
      simp only [List.head?_cons, Option.some.injEq] at h
      subst h
      simpa using hx

theorem stripTrailingCRLF_getLast (l : List Nat) (b : Nat)
    (h : (stripTrailingCRLF l).getLast? = some b) : b ≠ 13 ∧ b ≠ 10 := by
  unfold stripTrailingCRLF at h
  rw [List.getLast?_reverse] at h
  have hp := head_dropWhile_not _ _ _ h
  simpa using hp

/-- C7: opening a file whose bytes are `"hello\n"` loads the row `"hello"`
of size 5; the last byte of any loaded row is never a CR or LF (all trailing
CR/LF bytes are stripped); opening a nonexistent path exits fatally with
status 1. -/
theorem claim7_open_file (l : List Nat) (b : Nat) (e : EditorConfig)
    (hb : (stripTrailingCRLF l).getLast? = some b) :
    Editor_open (some [104, 101, 108, 108, 111, 10]) e =
      .ok { e with row := { size := 5, chars := [104, 101, 108, 108, 111] },
                   numRows := 1 } ∧
    Editor_open none e = .error 1 ∧
    (b ≠ 13 ∧ b ≠ 10) :=
  ⟨rfl, rfl, stripTrailingCRLF_getLast l b hb⟩

/-- C7 witness: the theorem at the line `"h\r"` (whose stripped form ends in
`'h'` = 104) and the concrete state `e24`. -/
theorem claim7_open_file_witness :
    Editor_open (some [104, 101, 108, 108, 111, 10]) e24 =
      .ok { e24 with row := { size := 5, chars := [104, 101, 108, 108, 111] },
                     numRows := 1 } ∧
    Editor_open none e24 = .error 1 ∧
    ((104 : Nat) ≠ 13 ∧ (104 : Nat) ≠ 10) :=
  claim7_open_file [104, 13] 104 e24 (by decide)

/-! ### Claim C8 -/

/-- C8: every frame is flushed as a single write whose bytes begin with the
cursor-hide sequence followed by cursor-home, and end with the 1-based
cursor-position sequence for `(cy + 1, cx + 1)` immediately followed by the
cursor-show sequence. -/
theorem claim8_frame_structure (e : EditorConfig) :
    Editor_refreshScreen e = [frameBytes e] ∧
    (∃ t, frameBytes e = ([27, 91, 63, 50, 53, 108] ++ [27, 91, 72]) ++ t) ∧
    (∃ s, frameBytes e =
       s ++ (cursorPosSeq (e.cy + 1) (e.cx + 1) ++ [27, 91, 63, 50, 53, 104])) := by
  refine ⟨rfl, ⟨Editor_drawRows e ++ cursorPosSeq (e.cy + 1) (e.cx + 1) ++
    [27, 91, 63, 50, 53, 104], ?_⟩,
    ⟨[27, 91, 63, 50, 53, 108] ++ [27, 91, 72] ++ Editor_drawRows e, ?_⟩⟩ <;>
  simp [frameBytes, List.append_assoc]

/-! ### Claim C9 -/

/-- C9 counterexample: with no loaded row in the 24x80 viewport, the
vertically-centered rows 11 and 12 hold only the placeholder `'~'`, while the
banner sits on row 8 (= 24 / 3, one third down). -/
theorem claim9_counterexample :
    Editor_drawRowContent e24 12 = [126] ∧
    Editor_drawRowContent e24 11 = [126] ∧
    Editor_drawRowContent e24 8 ≠ [126] := by
  decide

/-- C9 (amended): when no row is loaded, the version banner is written on
viewport row `screenRows / 3` (one third down, not the vertical center),
truncated to the viewport width and preceded by `(screenCols - bannerLen) / 2`
padding bytes — a `'~'` followed by spaces; every other row receives the
single placeholder `'~'`. -/
theorem claim9_banner_row (e : EditorConfig) (y : Int)
    (h0 : e.numRows = 0) (hr : 0 ≤ e.screenRows) (hy : 0 ≤ y) :
    (y ≠ e.screenRows / 3 → Editor_drawRowContent e y = [126]) ∧
    (∃ pre : List Nat,
       Editor_drawRowContent e (e.screenRows / 3) =
         pre ++ welcomeBytes.take
           (if (30 : Int) > e.screenCols then e.screenCols else 30).toNat ∧
       (pre.length : Int) =
         (e.screenCols - (if (30 : Int) > e.screenCols then e.screenCols else 30)) / 2 ∧
       (pre ≠ [] → pre.head? = some 126) ∧
       (∀ b ∈ pre.tail, b = 32)) := by
  have h30 : ((welcomeBytes.length : Int)) = 30 := rfl
  constructor
  · intro hne
    unfold Editor_drawRowContent
    rw [if_neg (by omega), if_neg hne]
  · have hy3 : 0 ≤ e.screenRows / 3 := by omega
    simp only [Editor_drawRowContent]
    rw [if_neg (by omega), if_pos trivial, h30]
    refine ⟨if (e.screenCols - if (30 : Int) > e.screenCols then e.screenCols else 30) / 2 ≠ 0
        then 126 :: List.replicate
          ((e.screenCols - if (30 : Int) > e.screenCols then e.screenCols else 30) / 2 - 1).toNat 32
        else [], rfl, ?_, ?_, ?_⟩
    · have hdiff : 0 ≤ e.screenCols - (if (30 : Int) > e.screenCols then e.screenCols else 30) := by
        split_ifs with h <;> omega
      have hpadnn : 0 ≤ (e.screenCols - (if (30 : Int) > e.screenCols then e.screenCols else 30)) / 2 := by
        omega
      by_cases hp : (e.screenCols - (if (30 : Int) > e.screenCols then e.screenCols else 30)) / 2 = 0
      · rw [hp]
        simp [hp]
      · rw [if_pos hp]
        simp only [List.length_cons, List.length_replicate]
        push_cast
        omega
    · intro hne
      by_cases hp : (e.screenCols - (if (30 : Int) > e.screenCols then e.screenCols else 30)) / 2 = 0
      · simp [hp] at hne
      · rw [if_pos hp]
        rfl
    · intro b hb
      by_cases hp : (e.screenCols - (if (30 : Int) > e.screenCols then e.screenCols else 30)) / 2 = 0
      · simp [hp] at hb
      · rw [if_pos hp] at hb
        simp only [List.tail_cons] at hb
        exact List.eq_of_mem_replicate hb

/-- C9 witness: the amended theorem at the concrete state `e24` and row 5. -/
theorem claim9_banner_row_witness :
    ((5 : Int) ≠ e24.screenRows / 3 → Editor_drawRowContent e24 5 = [126]) ∧
    (∃ pre : List Nat,
       Editor_drawRowContent e24 (e24.screenRows / 3) =
         pre ++ welcomeBytes.take
           (if (30 : Int) > e24.screenCols then e24.screenCols else 30).toNat ∧
       (pre.length : Int) =
         (e24.screenCols - (if (30 : Int) > e24.screenCols then e24.screenCols else 30)) / 2 ∧
       (pre ≠ [] → pre.head? = some 126) ∧
       (∀ b ∈ pre.tail, b = 32)) :=
  claim9_banner_row e24 5 (by decide) (by decide) (by decide)

end Memori
